import Mathlib

/-!
Shallow embedding of the Redox orbutils file manager
(src/file_manager/main.rs) — directory listing, file-type
classification, sort engine, column-width accumulation and window
geometry — together with theorems settling the specification claims.

Conventions of the embedding:
* Rust `u64` sizes and `usize` lengths are modelled as `Nat`; the `i32`
  column widths are small and non-negative, so they are modelled as
  `Nat` as well (no overflow occurs in the modelled range).
* Filesystem and external-crate effects are passed in explicitly:
  `isFile` models `Path::is_file`, `getMime` models
  `mime_guess::get_mime_type`, a spawn result models
  `Command::spawn`.
* A Rust `panic!` / `unwrap` abort is modelled by an `Option` result
  being `none`.
* Byte indices into filenames coincide with character indices for
  ASCII names, which is the regime of every concrete input used below.
-/

/-- ICON_SIZE constant from main.rs (also the row height of the list). -/
def ICON_SIZE : Nat := 32

/-- UI_PATH constant (non-redox variant) from main.rs. -/
def UI_PATH : String := "ui/icons"

/-- FileInfo struct from main.rs: one directory entry. -/
structure FileInfo where
  name : String
  full_path : String
  size : Nat
  size_str : String
  is_dir : Bool
deriving Repr, DecidableEq

/-- Size-string computation of FileInfo::new for a file whose
`fs::metadata` read succeeded with byte length `size`.  The Rust code is
`format!("{:.1} GB", (size as u64) / 1_000_000_000)` (resp. MB, KB,
bytes): the division is integer division on `u64`, and Rust `Display`
for integers ignores the `.1` precision, so the rendered text is the
decimal form of the truncated quotient. -/
def file_size_str (size : Nat) : String :=
  if size ≥ 1000000000 then
    toString (size / 1000000000) ++ " GB"
  else if size ≥ 1000000 then
    toString (size / 1000000) ++ " MB"
  else if size ≥ 1000 then
    toString (size / 1000) ++ " KB"
  else
    toString size ++ " bytes"

/-- FileInfo::new for a non-directory entry. `metadata` is
`some len` when `fs::metadata` succeeds with byte length `len`, and
`none` (with the error text) when it fails. -/
def FileInfo.new_file (name full_path : String) (metadata : Option Nat) (errText : String) : FileInfo :=
  match metadata with
  | some len => ⟨name, full_path, len, file_size_str len, false⟩
  | none => ⟨name, full_path, 0, "Failed to open: " ++ errText, false⟩

/-- Index of the last occurrence of a character in a character list,
modelling `str::rfind` (byte positions equal list positions for ASCII). -/
def lastIdxOf (c : Char) : List Char → Option Nat
  | [] => none
  | a :: rest =>
    match lastIdxOf c rest with
    | some i => some (i + 1)
    | none => if a = c then some 0 else none

/-- Extension extraction inside FileType::from_filename:
`let pos = file_name.rfind('.').unwrap_or(0) + 1; let ext = &file_name[pos..];`.
The slice panics when `pos` exceeds the length (e.g. for the empty
filename, where `pos = 1`); the panic is modelled as `none`. -/
def extOf (file_name : String) : Option String :=
  let pos := (lastIdxOf '.' file_name.toList).getD 0 + 1
  if pos ≤ file_name.toList.length then
    some (String.mk (file_name.toList.drop pos))
  else
    none

/-- Top-level MIME category (mime::TopLevel).  The source matches only
Image, Text and Audio explicitly; every other category falls through to
the extension allow-list, so they are collapsed into `other`. -/
inductive MimeTop
  | image
  | text
  | audio
  | other (label : String)
deriving Repr, DecidableEq

/-- Result of `mime_guess::get_mime_type`: the top-level category and
the textual form produced by `format!("{}", mime)`. -/
structure Mime where
  top : MimeTop
  text : String
deriving Repr, DecidableEq

/-- FileType struct from main.rs: description plus resolved icon path. -/
structure FileType where
  description : String
  icon : String
deriving Repr, DecidableEq

/-- FileType::new: search the icon-set subfolders "mimetypes" then
"places" for `<icon>.png`; the first existing file wins; if neither
exists, fall back to `mimetypes/unknown.png` (the misses are logged).
`fs::canonicalize(UI_PATH)` is modelled as the identity on `UI_PATH`
(its success is an environment precondition independent of the
filename); `isFile` models `Path::is_file`. -/
def FileType.new (isFile : String → Bool) (desc : String) (icon : String) : FileType :=
  if isFile (UI_PATH ++ "/mimetypes/" ++ icon ++ ".png") then
    ⟨desc, UI_PATH ++ "/mimetypes/" ++ icon ++ ".png"⟩
  else if isFile (UI_PATH ++ "/places/" ++ icon ++ ".png") then
    ⟨desc, UI_PATH ++ "/places/" ++ icon ++ ".png"⟩
  else
    ⟨desc, UI_PATH ++ "/mimetypes/unknown.png"⟩

/-- Extension allow-list of the `_` arm in FileType::from_filename. -/
def scriptExts : List String := ["asm", "ion", "lua", "rc", "rs", "sh"]

/-- Icon bucket selected from the MIME category and extension in
FileType::from_filename. -/
def iconFor (mt : MimeTop) (ext : String) : String :=
  match mt with
  | .image => "image-x-generic"
  | .text => "text-plain"
  | .audio => "audio-x-generic"
  | .other _ =>
    if ext = "c" ∨ ext = "cpp" ∨ ext = "h" then "text-x-c"
    else if ext ∈ scriptExts then "text-x-script"
    else if ext = "ttf" then "application-x-font-ttf"
    else if ext = "tar" then "package-x-generic"
    else "unknown"

/-- FileType::from_filename: a trailing path separator yields the fixed
folder classification; otherwise the extension is extracted (see
`extOf`; `none` is the slice panic), the MIME type is looked up, an icon
bucket is chosen, and FileType::new resolves the icon. -/
def FileType.from_filename (isFile : String → Bool) (getMime : String → Mime) (file_name : String) : Option FileType :=
  if file_name.toList.getLast? = some '/' then
    some (FileType.new isFile "folder" "inode-directory")
  else
    match extOf file_name with
    | none => none
    | some ext =>
      let mime := getMime ext
      some (FileType.new isFile mime.text (iconFor mime.top ext))

/-- SortPredicate enum from main.rs (the Type constructor is written
`Typ` because `Type` is reserved in Lean). -/
inductive SortPredicate
  | Name
  | Size
  | Typ
deriving Repr, DecidableEq

/-- SortDirection enum from main.rs. -/
inductive SortDirection
  | Asc
  | Desc
deriving Repr, DecidableEq

/-- SortDirection::invert, written functionally. -/
def SortDirection.invert : SortDirection → SortDirection
  | .Asc => .Desc
  | .Desc => .Asc

/-- Comparator of the Size arm of FileManager::sort_files:
`if a.is_dir != b.is_dir { b.is_dir.cmp(&a.is_dir) } else { a.size.cmp(&b.size) }`.
Bool ordering is false < true, as in Rust. -/
def size_cmp (a b : FileInfo) : Ordering :=
  if a.is_dir ≠ b.is_dir then compare b.is_dir a.is_dir else compare a.size b.size

/-- Boolean order underlying a stable sort by `size_cmp` (an element
may precede another exactly when the comparator is not Greater). -/
def size_le (a b : FileInfo) : Bool :=
  match size_cmp a b with
  | .gt => false
  | _ => true

/-- Boolean order of the Name arm: `a.name.cmp(&b.name)` (both Rust and
Lean compare strings lexicographically; they agree on ASCII names). -/
def name_le (a b : FileInfo) : Bool :=
  match compare a.name b.name with
  | .gt => false
  | _ => true

/-- Boolean order of the Type arm (`sort_by_key` on the lower-cased
type description); `descr` models `FileTypesInfo::description_for`. -/
def type_le (descr : String → String) (a b : FileInfo) : Bool :=
  match compare (descr a.name).toLower (descr b.name).toLower with
  | .gt => false
  | _ => true

/-- FileManager::sort_files: stable sort of the entry list by the
active predicate (Rust `sort_by` is stable, as is `List.mergeSort`),
then reverse the whole sequence when the direction is Descending. -/
def sort_files (descr : String → String) (pred : SortPredicate) (dir : SortDirection) (files : List FileInfo) : List FileInfo :=
  let sorted :=
    match pred with
    | .Name => files.mergeSort name_le
    | .Size => files.mergeSort size_le
    | .Typ => files.mergeSort (type_le descr)
  match dir with
  | .Asc => sorted
  | .Desc => sorted.reverse

/-- Sort-relevant state of FileManager: active predicate, active
direction and the entry list. -/
structure MState where
  sort_predicate : SortPredicate
  sort_direction : SortDirection
  files : List FileInfo
deriving Repr, DecidableEq

/-- Column-index-to-predicate match at the top of the ChangeSort arm of
FileManager::main; `none` is the `_ => return` arm. -/
def predicate_of (i : Nat) : Option SortPredicate :=
  match i with
  | 0 => some .Name
  | 1 => some .Size
  | 2 => some .Typ
  | _ => none

/-- ChangeSort arm of FileManager::main: map the column index to a
predicate (`none` models `_ => return`, which exits `main`); if the
selected predicate differs from the active one, replace the predicate
(the direction field is not written); otherwise invert the direction;
then re-sort the entries. -/
def change_sort (descr : String → String) (s : MState) (i : Nat) : Option MState :=
  match predicate_of i with
  | none => none
  | some predicate =>
    let p := if s.sort_predicate ≠ predicate then predicate else s.sort_predicate
    let d := if s.sort_predicate ≠ predicate then s.sort_direction else s.sort_direction.invert
    some ⟨p, d, sort_files descr p d s.files⟩

/-- Inner command-drain loop of FileManager::main restricted to
ChangeSort commands: commands are consumed in order; an out-of-range
index makes `main` return, which abandons the remaining commands.  The
Bool records whether `main` returned. -/
def drain_change_sorts (descr : String → String) (s : MState) : List Nat → MState × Bool
  | [] => (s, false)
  | i :: rest =>
    match change_sort descr s i with
    | some next => drain_change_sorts descr next rest
    | none => (s, true)

/-- Execute arm of FileManager::main:
`Command::new(LAUNCH_COMMAND).arg(&cmd).spawn().unwrap()`.  The spawn
result is passed in; `some ()` means the loop continues, `none` models
the `unwrap` panic, which aborts the whole application. -/
def handle_execute (spawn_result : Except String Unit) : Option Unit :=
  match spawn_result with
  | .ok _ => some ()
  | .error _ => none

/-- Window height computed identically in FileManager::set_path and
FileManager::update_list: fewer than 8 entries show all rows plus the
32-pixel header; 8 or more cap at 7 rows and shave 16 pixels to signal
scrolling. -/
def window_height (n : Nat) : Nat :=
  if n < 8 then (min n 7) * ICON_SIZE + 32 else 7 * ICON_SIZE + 32 - 16

/-- Window content height: the window height minus the fixed 32-pixel
header row. -/
def content_height (n : Nat) : Nat :=
  window_height n - 32

/-- Widths of the Name, Size and Type columns (the `width` fields of
the `columns` array). -/
structure ColumnWidths where
  name : Nat
  size : Nat
  typ : Nat
deriving Repr, DecidableEq

/-- Width contributed by one cell text: `(len * 8) as i32 + 16`. -/
def cell_width (s : String) : Nat :=
  s.length * 8 + 16

/-- Column-width reset at the top of FileManager::set_path: each width
becomes the minimum width of its own label, `(name.len() * 8) as i32 + 16`. -/
def reset_widths : ColumnWidths :=
  ⟨cell_width "Name", cell_width "Size", cell_width "Type"⟩

/-- Width update of FileManager::push_file: each column width becomes
the max of itself and the width of the cell text of the pushed entry
(name, size string, type description). -/
def push_file_widths (descr : String → String) (w : ColumnWidths) (f : FileInfo) : ColumnWidths :=
  ⟨max w.name (cell_width f.name),
   max w.size (cell_width f.size_str),
   max w.typ (cell_width (descr f.name))⟩

/-- Column widths after a directory load in FileManager::set_path:
reset to the label minima, then one push_file update per produced
entry. -/
def set_path_widths (descr : String → String) (files : List FileInfo) : ColumnWidths :=
  files.foldl (push_file_widths descr) reset_widths

/-- Helper: the not-Greater test on a Nat comparison is the ≤ order. -/
theorem cmp_not_gt_iff (m n : Nat) :
    (match compare m n with | Ordering.gt => false | _ => true) = true ↔ m ≤ n := by
  rcases h : compare m n with _ | _ | _
  · simpa [h] using Nat.le_of_lt (Nat.compare_eq_lt.mp h)
  · simpa [h] using Nat.le_of_eq (Nat.compare_eq_eq.mp h)
  · have := Nat.compare_eq_gt.mp h
    simp [h]
    omega

/-- Helper: comparison of the Bool directory flags, evaluated. -/
theorem bool_compare_true_false : compare true false = Ordering.gt := by decide

/-- Helper: comparison of the Bool directory flags, evaluated. -/
theorem bool_compare_false_true : compare false true = Ordering.lt := by decide

/-- Helper: explicit description of the Boolean order underlying the
Size comparator. -/
theorem size_le_iff (a b : FileInfo) :
    size_le a b = true ↔
      (if a.is_dir = b.is_dir then a.size ≤ b.size else a.is_dir = true) := by
  unfold size_le size_cmp
  cases ha : a.is_dir <;> cases hb : b.is_dir <;>
    simp [cmp_not_gt_iff, bool_compare_true_false, bool_compare_false_true]

/-- Helper: the Size order is total. -/
theorem size_le_total (a b : FileInfo) : size_le a b || size_le b a := by
  rw [Bool.or_eq_true, size_le_iff, size_le_iff]
  cases ha : a.is_dir <;> cases hb : b.is_dir <;> simp [ha, hb] <;> omega

/-- Helper: the Size order is transitive. -/
theorem size_le_trans (a b c : FileInfo) (hab : size_le a b) (hbc : size_le b c) :
    size_le a c := by
  rw [size_le_iff] at hab hbc ⊢
  cases ha : a.is_dir <;> cases hb : b.is_dir <;> cases hc : c.is_dir <;>
    simp_all <;> omega

/-- Helper: what a Size-ordered adjacent pair guarantees: directories
precede files, and equal directory flags are ordered by byte size. -/
theorem size_le_consequence (a b : FileInfo) (h : size_le a b = true) :
    (b.is_dir = true → a.is_dir = true) ∧ (a.is_dir = b.is_dir → a.size ≤ b.size) := by
  rw [size_le_iff] at h
  cases ha : a.is_dir <;> cases hb : b.is_dir <;> simp_all

/-- Helper: FileType::new always carries the requested description,
whichever icon file is found. -/
theorem FileType.new_description (isFile : String → Bool) (desc icon : String) :
    (FileType.new isFile desc icon).description = desc := by
  unfold FileType.new
  split
  · rfl
  · split <;> rfl

/-- Helper: folding a max-update over a list computes the max of the
seed and the maximum mapped value. -/
theorem foldl_max_eq (g : FileInfo → Nat) (files : List FileInfo) (a : Nat) :
    files.foldl (fun acc f => max acc (g f)) a = max a ((files.map g).foldr max 0) := by
  induction files generalizing a with
  | nil => simp
  | cons f fs ih =>
    simp only [List.foldl_cons, List.map_cons, List.foldr_cons, ih, Nat.max_assoc]

/-- Helper: the name-column projection of the width fold. -/
theorem widths_fold_name (descr : String → String) (files : List FileInfo) (w : ColumnWidths) :
    (files.foldl (push_file_widths descr) w).name
      = files.foldl (fun acc f => max acc (cell_width f.name)) w.name := by
  induction files generalizing w with
  | nil => rfl
  | cons f fs ih => simpa [push_file_widths] using ih (push_file_widths descr w f)

/-- Helper: the size-column projection of the width fold. -/
theorem widths_fold_size (descr : String → String) (files : List FileInfo) (w : ColumnWidths) :
    (files.foldl (push_file_widths descr) w).size
      = files.foldl (fun acc f => max acc (cell_width f.size_str)) w.size := by
  induction files generalizing w with
  | nil => rfl
  | cons f fs ih => simpa [push_file_widths] using ih (push_file_widths descr w f)

/-- Helper: the type-column projection of the width fold. -/
theorem widths_fold_typ (descr : String → String) (files : List FileInfo) (w : ColumnWidths) :
    (files.foldl (push_file_widths descr) w).typ
      = files.foldl (fun acc f => max acc (cell_width (descr f.name))) w.typ := by
  induction files generalizing w with
  | nil => rfl
  | cons f fs ih => simpa [push_file_widths] using ih (push_file_widths descr w f)

/-- C3: sorting by the Size predicate with Ascending direction places
every directory-flagged entry before every file-flagged entry and
orders entries with equal directory flags ascending by byte size; the
Descending result is the reverse of the whole Ascending sequence, so
there every file-flagged entry precedes every directory-flagged
entry. -/
theorem size_sort_directories_first (descr : String → String) (files : List FileInfo) :
    List.Pairwise
      (fun a b => (b.is_dir = true → a.is_dir = true) ∧ (a.is_dir = b.is_dir → a.size ≤ b.size))
      (sort_files descr .Size .Asc files)
    ∧ sort_files descr .Size .Desc files = (sort_files descr .Size .Asc files).reverse
    ∧ List.Pairwise (fun a b => a.is_dir = true → b.is_dir = true)
      (sort_files descr .Size .Desc files) := by
  have hs : (files.mergeSort size_le).Pairwise (fun a b => size_le a b = true) :=
    List.sorted_mergeSort size_le_trans size_le_total files
  have hasc : sort_files descr .Size .Asc files = files.mergeSort size_le := rfl
  have hdesc : sort_files descr .Size .Desc files = (files.mergeSort size_le).reverse := rfl
  refine ⟨?_, by rw [hasc, hdesc], ?_⟩
  · rw [hasc]
    exact hs.imp (fun h => size_le_consequence _ _ h)
  · rw [hdesc, List.pairwise_reverse]
    exact hs.imp (fun h => (size_le_consequence _ _ h).1)

/-- C1 (counterexample): with active predicate Name and direction
Descending, selecting column 1 (Size) switches the predicate but keeps
the direction Descending — it is not reset to Ascending as the claim
states. -/
theorem change_sort_counterexample :
    (change_sort (fun s => s) ⟨.Name, .Desc, []⟩ 1).map MState.sort_predicate
        = some SortPredicate.Size
    ∧ (change_sort (fun s => s) ⟨.Name, .Desc, []⟩ 1).map MState.sort_direction
        ≠ some SortDirection.Asc := by
  constructor
  · rfl
  · intro h
    simp [change_sort, predicate_of, sort_files] at h

/-- C1 (amended): for an in-range ChangeSort index, re-selecting the
active predicate inverts the direction, while selecting a different
predicate switches the predicate and leaves the direction unchanged
(it is not reset to Ascending); in both cases the entries are re-sorted
under the resulting predicate and direction. -/
theorem change_sort_toggle (descr : String → String) (s : MState) (i : Nat)
    (p : SortPredicate) (h : predicate_of i = some p) :
    ∃ t, change_sort descr s i = some t
      ∧ t.sort_predicate = p
      ∧ t.sort_direction
          = (if s.sort_predicate = p then s.sort_direction.invert else s.sort_direction)
      ∧ t.files = sort_files descr t.sort_predicate t.sort_direction s.files := by
  unfold change_sort
  rw [h]
  by_cases hp : s.sort_predicate = p
  · subst hp
    refine ⟨_, rfl, ?_, ?_, rfl⟩ <;> simp
  · refine ⟨_, rfl, ?_, ?_, rfl⟩ <;> simp [hp]

/-- Witness for the amended C1 theorem at the concrete state used in
the counterexample. -/
theorem change_sort_toggle_witness :
    ∃ t, change_sort (fun s => s) ⟨.Name, .Desc, []⟩ 1 = some t
      ∧ t.sort_predicate = SortPredicate.Size
      ∧ t.sort_direction
          = (if SortPredicate.Name = SortPredicate.Size
             then SortDirection.Desc.invert else SortDirection.Desc)
      ∧ t.files = sort_files (fun s => s) t.sort_predicate t.sort_direction [] :=
  change_sort_toggle (fun s => s) ⟨.Name, .Desc, []⟩ 1 SortPredicate.Size rfl

/-- C2 (code bug): for byte size 1500000 the code renders the string
composed of the truncated integer quotient, "1 MB", not the one-decimal
"1.5 MB" that its format string requests: Rust ignores the precision of
a format specifier applied to an integer, and the division is integer
division. -/
theorem file_size_str_truncates :
    file_size_str 1500000 = "1 MB" ∧ file_size_str 1500000 ≠ "1.5 MB" := by
  constructor <;> decide

/-- C4 (code bug): the Execute arm calls spawn().unwrap(), so a failed
launch aborts the whole application instead of being logged and
recovered; at any spawn error the handler yields the abort outcome and
never the continue outcome. -/
theorem handle_execute_failure_aborts :
    handle_execute (Except.error "No such file or directory") = none
    ∧ ∀ e : String, handle_execute (Except.error e) ≠ some () := by
  exact ⟨rfl, fun e h => by simp [handle_execute] at h⟩

/-- C5 (code bug): classification is not total — for the empty filename
(which set_path itself produces when a directory entry name is
unreadable) the extension slice starts at byte 1 of a 0-byte string and
panics, for every filesystem state and MIME table. -/
theorem from_filename_empty_name_panics :
    ∀ (isFile : String → Bool) (getMime : String → Mime),
      FileType.from_filename isFile getMime "" = none := by
  intro isFile getMime
  rfl

/-- C6 (code bug): for a dot-free filename the position used for the
extension slice is rfind-result-or-0 plus 1, so the lookup key is the
filename with only its first character removed — for "Makefile" the
MIME table is consulted with "akefile", not with the empty string. -/
theorem extOf_dotless_not_empty :
    extOf "Makefile" = some "akefile"
    ∧ extOf "Makefile" ≠ some ""
    ∧ FileType.from_filename (fun _ => false) (fun e => ⟨.other "application", e⟩) "Makefile"
        = some ⟨"akefile", "ui/icons/mimetypes/unknown.png"⟩ := by
  refine ⟨by decide, by decide, by decide⟩

/-- C7: every filename ending in the path separator is classified as
the fixed folder type — description "folder" and the directory icon —
regardless of any extension in the name. -/
theorem from_filename_trailing_slash (isFile : String → Bool) (getMime : String → Mime)
    (file_name : String) (h : file_name.toList.getLast? = some '/') :
    FileType.from_filename isFile getMime file_name
        = some (FileType.new isFile "folder" "inode-directory")
    ∧ (FileType.new isFile "folder" "inode-directory").description = "folder" := by
  constructor
  · unfold FileType.from_filename
    rw [h]
    simp
  · exact FileType.new_description isFile "folder" "inode-directory"

/-- Witness for the C7 theorem at a filename that carries an extension
before its trailing separator. -/
theorem from_filename_trailing_slash_witness :
    FileType.from_filename (fun _ => false) (fun e => ⟨.other "application", e⟩) "src.tar/"
        = some (FileType.new (fun _ => false) "folder" "inode-directory")
    ∧ (FileType.new (fun _ => false) "folder" "inode-directory").description = "folder" :=
  from_filename_trailing_slash (fun _ => false) (fun e => ⟨.other "application", e⟩)
    "src.tar/" (by decide)

/-- C8: the window content height (window height minus the fixed
32-pixel header) is entry_count rows of ICON_SIZE pixels when the count
is below 8, and 7 rows minus the 16-pixel scroll indicator inset
otherwise. -/
theorem content_height_formula (n : Nat) :
    (n < 8 → content_height n = n * ICON_SIZE)
    ∧ (8 ≤ n → content_height n = 7 * ICON_SIZE - 16) := by
  constructor
  · intro h
    have h7 : n ≤ 7 := by omega
    simp [content_height, window_height, h, Nat.min_eq_left h7, ICON_SIZE]
  · intro h
    have hn : ¬ n < 8 := by omega
    simp [content_height, window_height, hn, ICON_SIZE]

/-- Witness for the C8 theorem at the two entry counts named by the
claim: 12 entries and 3 entries. -/
theorem content_height_formula_witness :
    content_height 12 = 7 * ICON_SIZE - 16 ∧ content_height 3 = 3 * ICON_SIZE :=
  ⟨(content_height_formula 12).2 (by decide), (content_height_formula 3).1 (by decide)⟩

/-- C9: after a directory load, each column width is the max of the
minimum width of its own label and the per-entry cell widths
(character count times 8 plus 16) of the name, size-display and
type-description strings respectively; and a push_file update never
decreases any column width. -/
theorem column_widths_spec (descr : String → String) (files : List FileInfo) :
    (set_path_widths descr files).name
        = max (cell_width "Name") ((files.map (fun f => cell_width f.name)).foldr max 0)
    ∧ (set_path_widths descr files).size
        = max (cell_width "Size") ((files.map (fun f => cell_width f.size_str)).foldr max 0)
    ∧ (set_path_widths descr files).typ
        = max (cell_width "Type") ((files.map (fun f => cell_width (descr f.name))).foldr max 0)
    ∧ ∀ (w : ColumnWidths) (f : FileInfo),
        w.name ≤ (push_file_widths descr w f).name
        ∧ w.size ≤ (push_file_widths descr w f).size
        ∧ w.typ ≤ (push_file_widths descr w f).typ := by
  refine ⟨?_, ?_, ?_, ?_⟩
  · rw [set_path_widths, widths_fold_name, foldl_max_eq]
    rfl
  · rw [set_path_widths, widths_fold_size, foldl_max_eq]
    rfl
  · rw [set_path_widths, widths_fold_typ, foldl_max_eq]
    rfl
  · intro w f
    exact ⟨Nat.le_max_left _ _, Nat.le_max_left _ _, Nat.le_max_left _ _⟩

/-- C10: a ChangeSort command whose index is not 0, 1 or 2 hits the
catch-all arm, which returns from main: the predicate, direction and
entry list are left unchanged and no later command is processed. -/
theorem change_sort_out_of_range_returns (descr : String → String) (s : MState)
    (i : Nat) (rest : List Nat) (h : ¬(i = 0 ∨ i = 1 ∨ i = 2)) :
    change_sort descr s i = none
    ∧ drain_change_sorts descr s (i :: rest) = (s, true) := by
  have hp : predicate_of i = none := by
    match i with
    | 0 => exact absurd (Or.inl rfl) h
    | 1 => exact absurd (Or.inr (Or.inl rfl)) h
    | 2 => exact absurd (Or.inr (Or.inr rfl)) h
    | n + 3 => rfl
  have hcs : change_sort descr s i = none := by
    unfold change_sort
    rw [hp]
  refine ⟨hcs, ?_⟩
  unfold drain_change_sorts
  rw [hcs]

/-- Witness for the C10 theorem: index 7 with a pending in-range
command behind it that is never processed. -/
theorem change_sort_out_of_range_returns_witness :
    change_sort (fun s => s) ⟨.Name, .Asc, []⟩ 7 = none
    ∧ drain_change_sorts (fun s => s) ⟨.Name, .Asc, []⟩ [7, 0]
        = (⟨.Name, .Asc, []⟩, true) :=
  change_sort_out_of_range_returns (fun s => s) ⟨.Name, .Asc, []⟩ 7 [0] (by decide)
